import Mathlib

/-!
Verification development for the OAuth authorization-code exchange and
credential vault subsystem of the acquisition-pulse dashboard.

Byte strings (Python `str`/`bytes` restricted to their byte content) are
modelled as `List Nat`; `bs` turns an ASCII string literal into its byte
list. Ambient process state (environment variables, the keyed hash, the
Fernet cipher, the OS keyring, HTTP responses) is passed explicitly as
parameters or as fields of small environment structures, so every modelled
operation is a pure, executable Lean function.
-/

/-- Bytes of an ASCII string literal (model of a Python `str` / `bytes`). -/
def bs (s : String) : List Nat := s.data.map Char.toNat

/-- Python truthiness of an optional string: `None` and the empty string are
falsy, every other string is truthy. -/
def truthy : Option (List Nat) → Bool
  | some l => decide (l ≠ [])
  | none => false

/-! ## base64 (model of CPython `base64.urlsafe_b64encode` / `urlsafe_b64decode`)

`b64Encode` models `binascii.b2a_base64` (the core of `base64.b64encode`):
three input bytes become four alphabet characters, a trailing group of two
or one byte is padded with `=`. `a2b` models CPython `binascii.a2b_base64`
in its default non-strict mode: characters outside the alphabet are
skipped, a byte is emitted as soon as its bits are complete (so unused
trailing bits of the final group are dropped, not validated), `=` with at
least two quad characters consumed terminates decoding successfully, and a
dangling final quad is an error (`None`). The urlsafe variants translate
`+ /` to `- _` on encode and back on decode, exactly as the Python
wrappers do. The arithmetic `a * 4 + v / 16` etc. mirrors the C bit
operations `(leftchar << 2) | (this_ch >> 4)`; the operands are disjoint
in bits because table values are below 64, so addition equals bitwise or. -/

/-- Standard base64 alphabet character for a 6-bit value (`b2a` table). -/
def b64EncChar (v : Nat) : Nat :=
  if v < 26 then 65 + v
  else if v < 52 then 97 + (v - 26)
  else if v < 62 then 48 + (v - 52)
  else if v = 62 then 43 else 47

/-- Standard base64 value of a character (`a2b` table); `none` for
characters outside the alphabet (they are skipped in non-strict mode). -/
def b64Val (c : Nat) : Option Nat :=
  if 65 ≤ c ∧ c ≤ 90 then some (c - 65)
  else if 97 ≤ c ∧ c ≤ 122 then some (c - 97 + 26)
  else if 48 ≤ c ∧ c ≤ 57 then some (c - 48 + 52)
  else if c = 43 then some 62
  else if c = 47 then some 63
  else none

/-- Core of `base64.b64encode`: bytes to alphabet characters with `=` pad. -/
def b64Encode : List Nat → List Nat
  | a :: b :: c :: rest =>
      b64EncChar (a / 4) :: b64EncChar (a % 4 * 16 + b / 16) ::
      b64EncChar (b % 16 * 4 + c / 64) :: b64EncChar (c % 64) :: b64Encode rest
  | [a, b] => [b64EncChar (a / 4), b64EncChar (a % 4 * 16 + b / 16), b64EncChar (b % 16 * 4), 61]
  | [a] => [b64EncChar (a / 4), b64EncChar (a % 4 * 16), 61, 61]
  | [] => []

/-- CPython `binascii.a2b_base64`, non-strict mode. State: `quadPos` is the
position inside the current 4-character group, `leftchar` the pending bits,
`pads` the running count of `=` characters seen at quad position ≥ 2,
`acc` the emitted bytes in reverse. -/
def a2b : List Nat → Nat → Nat → Nat → List Nat → Option (List Nat)
  | [], quadPos, _, _, acc => if quadPos = 0 then some acc.reverse else none
  | c :: rest, quadPos, leftchar, pads, acc =>
      if c = 61 then
        if 2 ≤ quadPos then
          if 4 ≤ quadPos + (pads + 1) then some acc.reverse
          else a2b rest quadPos leftchar (pads + 1) acc
        else a2b rest quadPos leftchar pads acc
      else
        match b64Val c with
        | none => a2b rest quadPos leftchar pads acc
        | some v =>
          match quadPos with
          | 0 => a2b rest 1 v pads acc
          | 1 => a2b rest 2 (v % 16) pads ((leftchar * 4 + v / 16) :: acc)
          | 2 => a2b rest 3 (v % 4) pads ((leftchar * 16 + v / 4) :: acc)
          | _ => a2b rest 0 0 pads ((leftchar * 64 + v) :: acc)

/-- `base64.urlsafe_b64encode`: standard encode, then translate `+ /` to `- _`. -/
def urlsafeB64Encode (l : List Nat) : List Nat :=
  (b64Encode l).map fun c => if c = 43 then 45 else if c = 47 then 95 else c

/-- `base64.urlsafe_b64decode`: translate `- _` to `+ /`, then decode. -/
def urlsafeB64Decode (l : List Nat) : Option (List Nat) :=
  a2b (l.map fun c => if c = 45 then 43 else if c = 95 then 47 else c) 0 0 0 []

/-! ## string splitting and integer printing/parsing -/

/-- `s.split(sep, 1)` when `sep` occurs: the parts before and after the
first occurrence; `none` when `sep` does not occur (in the source the
two-name unpacking of a one-element list raises, caught by the caller). -/
def splitFirst (sep : Nat) : List Nat → Option (List Nat × List Nat)
  | [] => none
  | c :: rest =>
    if c = sep then some ([], rest)
    else
      match splitFirst sep rest with
      | some p => some (c :: p.1, p.2)
      | none => none

/-- `s.rsplit(sep, 1)`: split at the last occurrence of `sep`. -/
def rsplitLast (sep : Nat) (l : List Nat) : Option (List Nat × List Nat) :=
  match splitFirst sep l.reverse with
  | some p => some (p.2.reverse, p.1.reverse)
  | none => none

/-- Decimal digits of a natural number by division, the reference
recursion for proofs. -/
def natDigitsW (n : Nat) : List Nat :=
  if n < 10 then [48 + n]
  else natDigitsW (n / 10) ++ [48 + n % 10]
decreasing_by exact Nat.div_lt_self (by omega) (by omega)

/-- Fuel-driven version of `natDigitsW` that the kernel can evaluate. -/
def natDigitsCore : Nat → Nat → List Nat → List Nat
  | 0, _, acc => acc
  | fuel + 1, n, acc =>
    if n < 10 then (48 + n) :: acc
    else natDigitsCore fuel (n / 10) ((48 + n % 10) :: acc)

/-- Decimal digits of a natural number, i.e. Python `str(n)` for `n ≥ 0`. -/
def natDigits (n : Nat) : List Nat := natDigitsCore (n + 1) n []

/-- Accumulating decimal parser over digit characters. -/
def parseDigitsAux : List Nat → Nat → Option Nat
  | [], acc => some acc
  | c :: rest, acc =>
    if 48 ≤ c ∧ c ≤ 57 then parseDigitsAux rest (acc * 10 + (c - 48)) else none

/-- Parse a nonempty all-digit string. -/
def parseDigits (l : List Nat) : Option Nat :=
  if l = [] then none else parseDigitsAux l 0

/-- Model of Python `int(s)` restricted to an optional minus sign followed
by decimal digits (the only shapes arising from `str(int(time.time()))`
round-trips; other accepted Python spellings such as surrounding
whitespace or underscores are not needed by any claim). -/
def parseIntPy (l : List Nat) : Option Int :=
  match l with
  | [] => none
  | c :: rest =>
    if c = 45 then (parseDigits rest).map fun n => -(n : Int)
    else (parseDigits (c :: rest)).map fun n => (n : Int)

/-! ## State Token Codec (src/connectors/state.py)

The keyed hash `hmac.new(key, payload, hashlib.sha256).hexdigest()` is
modelled as an explicit function parameter `mac : key → payload → hex
digest bytes`; theorems that depend on the digest alphabet take the
hypothesis that the digest never contains the `.` separator (true of a hex
digest). `now` is the value of `int(time.time())`. UTF-8 decoding of the
base64-decoded payload is the identity on the byte level modelled here. -/

/-- `_get_key`: the configured key, `None` when unset or empty
(`DASHBOARD_HMAC_KEY` falling back to `DASHBOARD_SECRET_KEY` is collapsed
into the single optional value `keyEnv`). -/
def getKey (keyEnv : Option (List Nat)) : Option (List Nat) :=
  match keyEnv with
  | some k => if k = [] then none else some k
  | none => none

/-- `make_state_token(email, ttl_seconds)`: payload `email|ts`,
base64url-encoded, with `.hexsig` appended when a key is configured.
`ttlSeconds` is accepted but, as in the source, not embedded in the token. -/
def make_state_token (mac : List Nat → List Nat → List Nat)
    (keyEnv : Option (List Nat)) (now : Nat)
    (email : List Nat) (ttlSeconds : Nat) : List Nat :=
  let _ := ttlSeconds
  let payload := email ++ 124 :: natDigits now
  let b64 := urlsafeB64Encode payload
  match getKey keyEnv with
  | some k => b64 ++ 46 :: mac k payload
  | none => b64

/-- The part of `verify_state_token` that recovers the payload bytes:
the signed path splits on the last `.` and compares the recomputed digest
with `hmac.compare_digest` (functionally equality; its constant-time
execution is a timing property outside this embedding), the unsigned
fallback just base64-decodes. Note the source guard is
`if '.' in token and key:`, so with a key configured a dotless token still
takes the unsigned fallback. -/
def verifyPayload (mac : List Nat → List Nat → List Nat)
    (keyEnv : Option (List Nat)) (token : List Nat) : Option (List Nat) :=
  match getKey keyEnv with
  | some k =>
    if 46 ∈ token then
      match rsplitLast 46 token with
      | some p =>
        match urlsafeB64Decode p.1 with
        | some payload => if mac k payload = p.2 then some payload else none
        | none => none
      | none => none
    else urlsafeB64Decode token
  | none => urlsafeB64Decode token

/-- `verify_state_token(token, max_age_seconds)`: returns the embedded
email, or `None` on any failure (every exception in the source body is
caught and converted to `None`, which this total function mirrors). -/
def verify_state_token (mac : List Nat → List Nat → List Nat)
    (keyEnv : Option (List Nat)) (now : Nat)
    (token : List Nat) (maxAgeSeconds : Nat) : Option (List Nat) :=
  match verifyPayload mac keyEnv token with
  | none => none
  | some payload =>
    match splitFirst 124 payload with
    | none => none
    | some p =>
      match parseIntPy p.2 with
      | none => none
      | some ts => if (now : Int) - ts > (maxAgeSeconds : Int) then none else some p.1

/-! ## Exchange Orchestrator (src/connectors/oauth_server.py)

`_callback_core` is modelled with its ambient collaborators in `CbEnv`:
the state-token key and keyed hash, the Meta client credentials, the two
Meta token-endpoint HTTP responses (`ex1*` for the short-lived exchange,
`ex2*` for the long-lived upgrade), availability of the optional google
and tiktok connector modules, the outcome of each connector store call,
and the row count from each connector fetch (`none` covering both a fetch
exception and a `None` frame, which the source treats identically). The
model tracks the list of connector store calls attempted (`stores`), so
that "no token stored" is the statement `stores = []`. FastAPI-available
semantics are modelled: the early returns carry the HTTP status of the
corresponding `HTMLResponse`/tuple, the final success message status 200. -/

structure CbEnv where
  keyEnv : Option (List Nat)
  mac : List Nat → List Nat → List Nat
  now : Nat
  metaClientId : Option (List Nat)
  metaClientSecret : Option (List Nat)
  ex1Status : Nat
  ex1Text : List Nat
  ex1Access : Option (List Nat)
  ex2Status : Nat
  ex2Access : Option (List Nat)
  googleAvail : Bool
  tiktokAvail : Bool
  storeMeta : List Nat → Option (List Nat) → Bool
  storeGoogle : List Nat → Option (List Nat) → Bool
  storeTiktok : List Nat → Option (List Nat) → Bool
  rowsMeta : Option Nat
  rowsGoogle : Option Nat
  rowsTiktok : Option Nat

/-- Result of the callback: page text, HTTP status, and the connector
store calls attempted (platform tag, user email argument). -/
structure CbRes where
  msg : List Nat
  status : Nat
  stores : List (List Nat × Option (List Nat))
deriving DecidableEq

/-- Python `str.lower` on ASCII bytes. -/
def lowerList (l : List Nat) : List Nat :=
  l.map fun c => if 65 ≤ c ∧ c ≤ 90 then c + 32 else c

/-- The token-storage and sync tail of `_callback_core` (from the
`stored_ok = False` initialisation to the final message): dispatch the
store to the platform connector, keyed by the resolved user email when
truthy and the legacy default slot otherwise, then best-effort fetch, then
report. -/
def storeAndReport (env : CbEnv) (plat : List Nat) (longToken : List Nat)
    (userEmail : Option (List Nat)) : CbRes :=
  let ue := if truthy userEmail then userEmail else none
  let r : Bool × List (List Nat × Option (List Nat)) × Option Nat :=
    if plat = bs (r"meta") ∨ plat = bs (r"facebook") then
      (env.storeMeta longToken ue, [(bs (r"meta"), ue)], env.rowsMeta)
    else if plat = bs (r"google") ∨ plat = bs (r"google_ads") then
      if env.googleAvail then (env.storeGoogle longToken ue, [(bs (r"google"), ue)], env.rowsGoogle)
      else (false, [], none)
    else if plat = bs (r"tiktok") then
      if env.tiktokAvail then (env.storeTiktok longToken ue, [(bs (r"tiktok"), ue)], env.rowsTiktok)
      else (false, [], none)
    else
      (env.storeMeta longToken ue, [(bs (r"meta"), ue)], none)
  if ¬ r.1 then
    { msg := bs (r"Token obtained but failed to store encrypted token. Ensure DASHBOARD_SECRET_KEY is set and keyring is available if desired."),
      status := 500, stores := r.2.1 }
  else
    let base := bs (r"Token obtained and stored. You can close this window and return to the dashboard.")
    let m1 := match ue with
      | some e => base ++ bs (r" Stored for user: ") ++ e ++ bs (r".")
      | none => base
    let m2 := match r.2.2 with
      | some n => m1 ++ bs (r" Manual sync fetched ") ++ natDigits n ++ bs (r" rows and updated `data/spend.csv`.")
      | none => m1
    { msg := m2, status := 200, stores := r.2.1 }

/-- The token-acquisition stage of `_callback_core`: a directly supplied
(simulated) token is used as is; otherwise, with a `code`, the Meta branch
performs the two-step exchange (falling back to the short-lived token when
the upgrade call fails) and the google/tiktok/unknown branches return
their informative error pages (reached with `token` falsy, so the source
`if not token` guard always fires there). `Sum.inl` is an early return. -/
def resolveLongToken (env : CbEnv) (plat : List Nat) (code token : Option (List Nat)) :
    Sum CbRes (Option (List Nat)) :=
  let longTok1 : Option (List Nat) := if truthy token then token else none
  if longTok1.isNone ∧ truthy code then
    if plat = bs (r"meta") ∨ plat = bs (r"facebook") then
      if ¬ truthy env.metaClientId ∨ ¬ truthy env.metaClientSecret then
        Sum.inl ⟨bs (r"Missing client credentials in environment"), 500, []⟩
      else if env.ex1Status ≠ 200 then
        Sum.inl ⟨bs (r"Failed to exchange code: ") ++ env.ex1Text, 500, []⟩
      else if ¬ truthy env.ex1Access then
        Sum.inl ⟨bs (r"No access_token returned by provider"), 500, []⟩
      else if env.ex2Status ≠ 200 then Sum.inr env.ex1Access
      else Sum.inr env.ex2Access
    else if plat = bs (r"google") ∨ plat = bs (r"google_ads") then
      Sum.inl ⟨bs (r"Google code exchange not implemented in dev server; use simulated token or configure real OAuth."), 400, []⟩
    else if plat = bs (r"tiktok") then
      Sum.inl ⟨bs (r"TikTok code exchange not implemented in dev server; use simulated token or configure real OAuth."), 400, []⟩
    else
      Sum.inl ⟨bs (r"Unknown platform and no token provided"), 400, []⟩
  else Sum.inr longTok1

/-- `_callback_core(request, platform, code, token, error, state)`.
`verify_state_token` is total, so the source `except` arm around it is
unreachable and does not appear. -/
def callback_core (env : CbEnv) (platform code token error state : Option (List Nat)) : CbRes :=
  if truthy error then ⟨bs (r"OAuth error: ") ++ (error.getD []), 400, []⟩
  else
    let plat := lowerList (platform.getD [])
    match resolveLongToken env plat code token with
    | Sum.inl r => r
    | Sum.inr longTok =>
      if ¬ truthy longTok then ⟨bs (r"Missing token or code in callback"), 400, []⟩
      else
        let lt := longTok.getD []
        match state with
        | some s =>
          if s = [] then storeAndReport env plat lt none
          else
            match verify_state_token env.mac env.keyEnv env.now s 600 with
            | some e => storeAndReport env plat lt (some e)
            | none =>
              if 64 ∈ s then storeAndReport env plat lt (some s)
              else ⟨bs (r"Invalid or expired state token"), 400, []⟩
        | none => storeAndReport env plat lt none

/-! ## Credential Vault (src/connectors/meta_connector.py and
src/connectors/google_connector.py)

`Vault` carries the ambient state the connector helpers touch: keyring
availability (`kAvail` models a successful `import keyring`), whether
`keyring.set_password` succeeds (`kWriteOk`; on failure the source logs
and falls through with no partial write), the keyring content `kStore`
(a name-to-secret map under the constant service `profit_dashboard`),
Fernet importability and the `DASHBOARD_SECRET_KEY` value, the Fernet
encrypt/decrypt behaviour under that key (`encF`/`decF`; `decF` returns
`none` where `f.decrypt` raises, and the key when set is assumed to be a
well-formed Fernet key so that the `Fernet(key)` constructor does not
raise), and the JSON metadata file `data/connectors_meta.json`. Keyring
reads are modelled as always succeeding. `PlatRec` models the fields of a
platform entry that these helpers read or write; `save_meta` merges a
full record over the existing entry, which on these fields is
replacement (the `client_secret` re-encryption inside `save_meta` touches
only fields outside the model). Dicts are modelled as association lists
whose update semantics (`aset`/`aerase`) match dict assignment and
deletion under lookup. -/

/-- Association-list lookup (Python dict `.get`). -/
def alook : List (List Nat × List Nat) → List Nat → Option (List Nat)
  | [], _ => none
  | (k, v) :: rest, key => if k = key then some v else alook rest key

/-- Remove every binding of a key (Python `del d[k]` under lookup). -/
def aerase : List (List Nat × List Nat) → List Nat → List (List Nat × List Nat)
  | [], _ => []
  | (k, v) :: rest, key => if k = key then aerase rest key else (k, v) :: aerase rest key

/-- Set a binding (Python `d[k] = v` under lookup). -/
def aset (l : List (List Nat × List Nat)) (key v : List Nat) :
    List (List Nat × List Nat) :=
  (key, v) :: aerase l key

/-- Fields of one platform entry of `data/connectors_meta.json` that the
modelled helpers read or write: the per-user `tokens` map, the legacy
`access_token_encrypted` field, presence of the `last_sync` key, and the
spend-fetch account resolution fields `email_ad_accounts` and
`ad_account_id`. -/
structure PlatRec where
  tokens : List (List Nat × List Nat)
  legacyTok : Option (List Nat)
  lastSync : Bool
  emailAdAccounts : List (List Nat × List Nat)
  adAccountId : Option (List Nat)

/-- The empty platform entry (Python `{}` defaults under `.get`). -/
def defaultPlatRec : PlatRec :=
  { tokens := [], legacyTok := none, lastSync := false, emailAdAccounts := [], adAccountId := none }

/-- The metadata file: `none` models an absent (or unparseable) file. -/
structure FileData where
  meta : Option PlatRec
  google : Option PlatRec

structure Vault where
  kAvail : Bool
  kWriteOk : Bool
  kStore : List (List Nat × List Nat)
  fernet : Bool
  secretKey : Option (List Nat)
  encF : List Nat → List Nat
  decF : List Nat → Option (List Nat)
  file : Option FileData

/-- `can_encrypt()`. -/
def can_encrypt (v : Vault) : Bool := v.fernet ∧ truthy v.secretKey

/-- `can_use_keyring()`. -/
def can_use_keyring (v : Vault) : Bool := v.kAvail

/-- `encrypt_token(token)`. -/
def encrypt_token (v : Vault) (token : List Nat) : Option (List Nat) :=
  if ¬ v.fernet then none
  else if ¬ truthy v.secretKey then none
  else some (v.encF token)

/-- `decrypt_token(token_encrypted)`. -/
def decrypt_token (v : Vault) (c : List Nat) : Option (List Nat) :=
  if ¬ v.fernet then none
  else if ¬ truthy v.secretKey then none
  else v.decF c

/-- `load_meta('meta')`. -/
def loadMetaM (v : Vault) : Option PlatRec := v.file.bind (·.meta)

/-- `load_meta('google')`. -/
def loadMetaG (v : Vault) : Option PlatRec := v.file.bind (·.google)

/-- `save_meta('meta', m)`: read-merge-write of the shared file. -/
def saveMetaM (v : Vault) (m : PlatRec) : Vault :=
  { v with file := some { meta := some m, google := v.file.bind (·.google) } }

/-- `save_meta('google', m)`. -/
def saveMetaG (v : Vault) (m : PlatRec) : Vault :=
  { v with file := some { meta := v.file.bind (·.meta), google := some m } }

/-- `user_email or 'default'`: the per-user slot key. -/
def pyKeyOf (user : Option (List Nat)) : List Nat :=
  match user with
  | some u => if u = [] then bs (r"default") else u
  | none => bs (r"default")

/-- Keyring entry name `meta_access_token_{email_key}`. -/
def metaTokenKeyName (ekey : List Nat) : List Nat := bs (r"meta_access_token_") ++ ekey

/-- Keyring entry name `google_access_token_{email_key}`. -/
def googleTokenKeyName (ekey : List Nat) : List Nat := bs (r"google_access_token_") ++ ekey

/-- `store_token_for_meta_user(token, user_email)`: keyring first (with
metadata refresh of `last_sync` and no token in the file), else Fernet
file fallback, else failure; returns the flag and the updated state. -/
def store_token_for_meta_user (v : Vault) (token : List Nat) (user : Option (List Nat)) :
    Bool × Vault :=
  let ekey := pyKeyOf user
  if v.kAvail ∧ v.kWriteOk then
    let v1 := { v with kStore := aset v.kStore (metaTokenKeyName ekey) token }
    let m := (loadMetaM v1).getD defaultPlatRec
    (true, saveMetaM v1 { m with lastSync := true })
  else
    if ¬ can_encrypt v then (false, v)
    else
      match encrypt_token v token with
      | none => (false, v)
      | some enc =>
        if enc = [] then (false, v)
        else
          let m := (loadMetaM v).getD defaultPlatRec
          (true, saveMetaM v { m with tokens := aset m.tokens ekey enc, lastSync := true })

/-- `store_token_for_meta(token)`: the legacy single-token entry point,
delegating to the per-user helper with no user. -/
def store_token_for_meta (v : Vault) (token : List Nat) : Bool × Vault :=
  store_token_for_meta_user v token none

/-- `get_token_for_meta_user(user_email)`: keyring first (a falsy keyring
value falls through), then the encrypted file map, decrypting. -/
def get_token_for_meta_user (v : Vault) (user : Option (List Nat)) : Option (List Nat) :=
  let ekey := pyKeyOf user
  let fromKeyring : Option (List Nat) :=
    if v.kAvail then
      match alook v.kStore (metaTokenKeyName ekey) with
      | some t => if t = [] then none else some t
      | none => none
    else none
  match fromKeyring with
  | some t => some t
  | none =>
    match loadMetaM v with
    | none => none
    | some m =>
      match alook m.tokens ekey with
      | none => none
      | some enc => if enc = [] then none else decrypt_token v enc

/-- `token_storage_location_for_user(user_email)`. -/
def token_storage_location_for_user (v : Vault) (user : Option (List Nat)) : List Nat :=
  let ekey := pyKeyOf user
  if v.kAvail ∧ truthy (alook v.kStore (metaTokenKeyName ekey)) then bs (r"keyring")
  else
    let tokens := ((loadMetaM v).getD defaultPlatRec).tokens
    if tokens ≠ [] ∧ truthy (alook tokens ekey) then bs (r"encrypted_file")
    else bs (r"none")

/-- `migrate_file_token_to_keyring_for_user(user_email)`: decrypt the
file-stored token, write it to the keyring, delete the file entry; any
missing piece returns failure with the state untouched. -/
def migrate_file_token_to_keyring_for_user (v : Vault) (user : Option (List Nat)) :
    Bool × Vault :=
  if ¬ v.kAvail then (false, v)
  else
    let ekey := pyKeyOf user
    let m := (loadMetaM v).getD defaultPlatRec
    match alook m.tokens ekey with
    | none => (false, v)
    | some enc =>
      if enc = [] then (false, v)
      else
        match decrypt_token v enc with
        | none => (false, v)
        | some token =>
          if token = [] then (false, v)
          else if ¬ v.kWriteOk then (false, v)
          else
            let v1 := { v with kStore := aset v.kStore (metaTokenKeyName ekey) token }
            (true, saveMetaM v1 { m with tokens := aerase m.tokens ekey })

/-- `migrate_file_token_to_keyring()`: the legacy no-argument migration;
it probes only the legacy `access_token_encrypted` field and writes the
unsuffixed keyring name `meta_access_token` (the code after its final
`return`/`except` is unreachable and not modelled). -/
def migrate_file_token_to_keyring (v : Vault) : Bool × Vault :=
  if ¬ v.kAvail then (false, v)
  else
    let m := (loadMetaM v).getD defaultPlatRec
    match m.legacyTok with
    | none => (false, v)
    | some enc =>
      if enc = [] then (false, v)
      else
        match decrypt_token v enc with
        | none => (false, v)
        | some token =>
          if token = [] then (false, v)
          else if ¬ v.kWriteOk then (false, v)
          else
            let v1 := { v with kStore := aset v.kStore (bs (r"meta_access_token")) token }
            (true, saveMetaM v1 { m with legacyTok := none })

/-- `store_token_for_google_user(token, user_email)` — same shape as the
Meta helper with the google platform slot and keyring names. -/
def store_token_for_google_user (v : Vault) (token : List Nat) (user : Option (List Nat)) :
    Bool × Vault :=
  let ekey := pyKeyOf user
  if v.kAvail ∧ v.kWriteOk then
    let v1 := { v with kStore := aset v.kStore (googleTokenKeyName ekey) token }
    let m := (loadMetaG v1).getD defaultPlatRec
    (true, saveMetaG v1 { m with lastSync := true })
  else
    if ¬ can_encrypt v then (false, v)
    else
      match encrypt_token v token with
      | none => (false, v)
      | some enc =>
        if enc = [] then (false, v)
        else
          let m := (loadMetaG v).getD defaultPlatRec
          (true, saveMetaG v { m with tokens := aset m.tokens ekey enc, lastSync := true })

/-- `get_token_for_google_user(user_email)`. -/
def get_token_for_google_user (v : Vault) (user : Option (List Nat)) : Option (List Nat) :=
  let ekey := pyKeyOf user
  let fromKeyring : Option (List Nat) :=
    if v.kAvail then
      match alook v.kStore (googleTokenKeyName ekey) with
      | some t => if t = [] then none else some t
      | none => none
    else none
  match fromKeyring with
  | some t => some t
  | none =>
    let m := (loadMetaG v).getD defaultPlatRec
    match alook m.tokens ekey with
    | none => none
    | some enc => if enc = [] then none else decrypt_token v enc

/-- The meta `tokens` map as stored in the file (empty when absent). -/
def metaTokens (v : Vault) : List (List Nat × List Nat) :=
  ((loadMetaM v).getD defaultPlatRec).tokens

/-- The google `tokens` map as stored in the file (empty when absent). -/
def googleTokens (v : Vault) : List (List Nat × List Nat) :=
  ((loadMetaG v).getD defaultPlatRec).tokens

/-- The meta legacy `access_token_encrypted` field. -/
def metaLegacy (v : Vault) : Option (List Nat) :=
  ((loadMetaM v).getD defaultPlatRec).legacyTok

/-! ## Google spend fetch (src/connectors/google_connector.py)

`fetch_spend_and_persist` with its collaborators made explicit: `envAcct`
is `GOOGLE_AD_ACCOUNT_ID`, `api` is the row list produced by
`_fetch_google_ads_spend` (which returns `[]` on every internal failure,
including absent client id/secret, so an abstract list covers all its
outcomes). The function returns the frame rows together with the info log
messages it emits; the CSV write, `last_sync` update and the
warning log of a failed live attempt are side effects no claim observes
and are not modelled. Real rows carry the extra `campaign_name` column,
synthetic rows do not (`none`). Monetary values are exact here
(`500.0` etc. are representable), modelled as rationals. -/

structure GRow where
  campaign_id : List Nat
  campaign_name : Option (List Nat)
  ad_spend : Rat
  platform : List Nat
  date : List Nat
deriving DecidableEq

/-- The fixed two-row synthetic Google demo frame. -/
def googleSynthRows : List GRow :=
  [{ campaign_id := bs (r"g_campA"), campaign_name := none, ad_spend := 500,
     platform := bs (r"Google"), date := bs (r"2025-01-01") },
   { campaign_id := bs (r"g_campB"), campaign_name := none, ad_spend := 250,
     platform := bs (r"Google"), date := bs (r"2025-01-02") }]

/-- The info message logged on the synthetic path. -/
def googleSyntheticMsg : List Nat :=
  bs (r"Using synthetic Google Ads data (no token or customer ID)")

/-- Returned frame rows plus the info log messages emitted. The Python
return value is only the frame; the logs are a side channel. -/
structure GRes where
  rows : List GRow
  logs : List (List Nat)
deriving DecidableEq

/-- `token = access_token or get_token_for_google_user(user_email)`. -/
def resolveGoogleToken (v : Vault) (access user : Option (List Nat)) : Option (List Nat) :=
  if truthy access then access else get_token_for_google_user v user

/-- The `ad_account` resolution chain: environment override, then the
per-user `email_ad_accounts` map, then the platform `ad_account_id`. -/
def resolveGoogleAcct (v : Vault) (envAcct user : Option (List Nat)) : Option (List Nat) :=
  if truthy envAcct then envAcct
  else
    let m := (loadMetaG v).getD defaultPlatRec
    let fromMap : Option (List Nat) :=
      match user with
      | some u =>
        if u = [] then none
        else if m.emailAdAccounts ≠ [] ∧ truthy (alook m.emailAdAccounts u) then
          alook m.emailAdAccounts u
        else none
      | none => none
    if truthy fromMap then fromMap else m.adAccountId

/-- `fetch_spend_and_persist(access_token, user_email, ...)` for Google. -/
def fetch_spend_and_persist_google (v : Vault) (envAcct : Option (List Nat))
    (api : List GRow) (access user : Option (List Nat)) : GRes :=
  if truthy (resolveGoogleToken v access user) ∧ truthy (resolveGoogleAcct v envAcct user) then
    if api ≠ [] then
      { rows := api,
        logs := [bs (r"Fetched ") ++ natDigits api.length ++ bs (r" rows from Google Ads API")] }
    else { rows := googleSynthRows, logs := [googleSyntheticMsg] }
  else { rows := googleSynthRows, logs := [googleSyntheticMsg] }

/-! ## TikTok code exchange (src/backend.py and src/app_dashboard.py)

The tiktok arm of `backend.exchange_oauth_code` and the dashboard helper
`_exchange_tiktok_code`, over one provider response environment: client
credentials, the transport status and raw text, and the parsed JSON
fields `code`, `message` and `data.access_token` / `data.refresh_token`
(a well-formed JSON body is assumed). `fernetKey` is the backend
`DASHBOARD_SECRET_KEY` and `encB` its Fernet encryption; persisting the
encrypted tokens into `tokens.json` is a side effect no claim observes
and is not modelled. -/

structure OAuthTokenResponse where
  ok : Bool
  access_token : Option (List Nat)
  refresh_token : Option (List Nat)
  error : Option (List Nat)
deriving DecidableEq

/-- `OAuthTokenResponse(ok=False, error=msg)`. -/
def failResp (msg : List Nat) : OAuthTokenResponse :=
  { ok := false, access_token := none, refresh_token := none, error := some msg }

/-- Python f-string rendering of an optional string (absent prints as the
four letters None). -/
def pyShowOptStr : Option (List Nat) → List Nat
  | none => bs (r"None")
  | some m => m

structure TkEnv where
  cid : Option (List Nat)
  csec : Option (List Nat)
  status : Nat
  text : List Nat
  codeField : Option Int
  message : Option (List Nat)
  dataAccess : Option (List Nat)
  dataRefresh : Option (List Nat)
  fernetKey : Option (List Nat)
  encB : List Nat → List Nat

/-- The text of the AttributeError raised by evaluating `.encode()` on
`None` (code 39 is the ASCII single-quote character). -/
def noneTypeEncodeMsg : List Nat :=
  [39, 78, 111, 110, 101, 84, 121, 112, 101, 39] ++ bs (r" object has no attribute ") ++
    [39] ++ bs (r"encode") ++ [39]

/-- The tiktok arm of `backend.exchange_oauth_code` together with the
shared encrypt-and-respond tail; every raise inside the body is caught by
the enclosing handler and rendered as `ok=False` with `str(e)`. -/
def exchange_oauth_code_tiktok (e : TkEnv) : OAuthTokenResponse :=
  if ¬ truthy e.cid ∨ ¬ truthy e.csec then
    failResp (bs (r"TikTok credentials not configured. Set TIKTOK_CLIENT_ID and TIKTOK_CLIENT_SECRET environment variables."))
  else if e.status ≠ 200 then
    failResp (bs (r"Failed to exchange TikTok code: ") ++ e.text)
  else if e.codeField ≠ some 0 then
    failResp (bs (r"TikTok API error: ") ++ pyShowOptStr e.message)
  else
    match e.fernetKey with
    | none => failResp (bs (r"DASHBOARD_SECRET_KEY not set"))
    | some fk =>
      if fk = [] then failResp (bs (r"DASHBOARD_SECRET_KEY not set"))
      else
        match e.dataAccess with
        | none => failResp noneTypeEncodeMsg
        | some a =>
          let refresh := e.dataRefresh.getD []
          { ok := true, access_token := some (e.encB a),
            refresh_token := some (if refresh = [] then [] else e.encB refresh),
            error := none }

/-- `_exchange_tiktok_code(code)` from the dashboard: `None` on any
failure, the embedded access token only when both the transport status is
200 and the embedded code is 0. -/
def exchange_tiktok_code_dash (e : TkEnv) : Option (List Nat) :=
  if ¬ truthy e.cid ∨ ¬ truthy e.csec then none
  else if e.status ≠ 200 then none
  else if e.codeField = some 0 then e.dataAccess
  else none

/-! ## Lemmas: base64 roundtrip on encoder images -/

theorem b64Val_encChar : ∀ v < 64, b64Val (b64EncChar v) = some v := by decide

theorem b64EncChar_ne : ∀ v < 64, b64EncChar v ≠ 61 ∧ b64EncChar v ≠ 45 ∧
    b64EncChar v ≠ 95 ∧ b64EncChar v ≠ 46 := by decide

theorem a2b_enc0 (v : Nat) (hv : v < 64) (rest : List Nat) (leftchar pads : Nat) (acc : List Nat) :
    a2b (b64EncChar v :: rest) 0 leftchar pads acc = a2b rest 1 v pads acc := by
  simp only [a2b, if_neg (b64EncChar_ne v hv).1, b64Val_encChar v hv]

theorem a2b_enc1 (v : Nat) (hv : v < 64) (rest : List Nat) (leftchar pads : Nat) (acc : List Nat) :
    a2b (b64EncChar v :: rest) 1 leftchar pads acc
      = a2b rest 2 (v % 16) pads ((leftchar * 4 + v / 16) :: acc) := by
  simp only [a2b, if_neg (b64EncChar_ne v hv).1, b64Val_encChar v hv]

theorem a2b_enc2 (v : Nat) (hv : v < 64) (rest : List Nat) (leftchar pads : Nat) (acc : List Nat) :
    a2b (b64EncChar v :: rest) 2 leftchar pads acc
      = a2b rest 3 (v % 4) pads ((leftchar * 16 + v / 4) :: acc) := by
  simp only [a2b, if_neg (b64EncChar_ne v hv).1, b64Val_encChar v hv]

theorem a2b_enc3 (v : Nat) (hv : v < 64) (rest : List Nat) (leftchar pads : Nat) (acc : List Nat) :
    a2b (b64EncChar v :: rest) 3 leftchar pads acc
      = a2b rest 0 0 pads ((leftchar * 64 + v) :: acc) := by
  simp only [a2b, if_neg (b64EncChar_ne v hv).1, b64Val_encChar v hv]

theorem a2b_b64Encode (l : List Nat) (h : ∀ x ∈ l, x < 256) :
    ∀ pads acc, a2b (b64Encode l) 0 0 pads acc = some (acc.reverse ++ l) := by
  induction l using b64Encode.induct with
  | case1 a b c rest ih =>
    intro pads acc
    have ha : a < 256 := h a (by simp)
    have hb : b < 256 := h b (by simp)
    have hc : c < 256 := h c (by simp)
    rw [b64Encode, a2b_enc0 _ (by omega), a2b_enc1 _ (by omega), a2b_enc2 _ (by omega),
      a2b_enc3 _ (by omega)]
    have e1 : a / 4 * 4 + (a % 4 * 16 + b / 16) / 16 = a := by omega
    have e2 : (a % 4 * 16 + b / 16) % 16 * 16 + (b % 16 * 4 + c / 64) / 4 = b := by omega
    have e3 : (b % 16 * 4 + c / 64) % 4 * 64 + c % 64 = c := by omega
    rw [e1, e2, e3, ih (fun x hx => h x (by simp [hx]))]
    simp
  | case2 a b =>
    intro pads acc
    have ha : a < 256 := h a (by simp)
    have hb : b < 256 := h b (by simp)
    rw [b64Encode, a2b_enc0 _ (by omega), a2b_enc1 _ (by omega), a2b_enc2 _ (by omega)]
    have e1 : a / 4 * 4 + (a % 4 * 16 + b / 16) / 16 = a := by omega
    have e2 : (a % 4 * 16 + b / 16) % 16 * 16 + b % 16 * 4 / 4 = b := by omega
    rw [e1, e2]
    simp only [a2b, if_pos rfl, if_pos (by omega : (2:Nat) ≤ 3), if_pos (by omega : 4 ≤ 3 + (pads + 1))]
    simp
  | case3 a =>
    intro pads acc
    have ha : a < 256 := h a (by simp)
    rw [b64Encode, a2b_enc0 _ (by omega), a2b_enc1 _ (by omega)]
    have e1 : a / 4 * 4 + a % 4 * 16 / 16 = a := by omega
    rw [e1]
    by_cases hp : 4 ≤ 2 + (pads + 1)
    · simp only [a2b, if_pos rfl, if_pos (by omega : (2:Nat) ≤ 2), if_pos hp]
      simp
    · simp only [a2b, if_pos rfl, if_pos (by omega : (2:Nat) ≤ 2), if_neg hp,
        if_pos (by omega : 4 ≤ 2 + (pads + 1 + 1))]
      simp
  | case4 =>
    intro pads acc
    simp [b64Encode, a2b]

theorem mem_b64Encode (l : List Nat) (h : ∀ x ∈ l, x < 256) :
    ∀ c ∈ b64Encode l, c = 61 ∨ ∃ v, v < 64 ∧ c = b64EncChar v := by
  induction l using b64Encode.induct with
  | case1 a b c rest ih =>
    have ha : a < 256 := h a (by simp)
    have hb : b < 256 := h b (by simp)
    have hc : c < 256 := h c (by simp)
    intro x hx
    rw [b64Encode] at hx
    simp only [List.mem_cons] at hx
    rcases hx with rfl | rfl | rfl | rfl | hx
    · exact Or.inr ⟨_, by omega, rfl⟩
    · exact Or.inr ⟨_, by omega, rfl⟩
    · exact Or.inr ⟨_, by omega, rfl⟩
    · exact Or.inr ⟨_, by omega, rfl⟩
    · exact ih (fun x hx => h x (by simp [hx])) x hx
  | case2 a b =>
    have ha : a < 256 := h a (by simp)
    have hb : b < 256 := h b (by simp)
    intro x hx
    rw [b64Encode] at hx
    simp only [List.mem_cons, List.not_mem_nil, or_false] at hx
    rcases hx with rfl | rfl | rfl | rfl
    · exact Or.inr ⟨_, by omega, rfl⟩
    · exact Or.inr ⟨_, by omega, rfl⟩
    · exact Or.inr ⟨_, by omega, rfl⟩
    · exact Or.inl rfl
  | case3 a =>
    have ha : a < 256 := h a (by simp)
    intro x hx
    rw [b64Encode] at hx
    simp only [List.mem_cons, List.not_mem_nil, or_false] at hx
    rcases hx with rfl | rfl | rfl | rfl
    · exact Or.inr ⟨_, by omega, rfl⟩
    · exact Or.inr ⟨_, by omega, rfl⟩
    · exact Or.inl rfl
    · exact Or.inl rfl
  | case4 => intro x hx; simp [b64Encode] at hx

theorem untrans_trans_encode (l : List Nat) (h : ∀ x ∈ l, x < 256) :
    (urlsafeB64Encode l).map (fun c => if c = 45 then 43 else if c = 95 then 47 else c)
      = b64Encode l := by
  unfold urlsafeB64Encode
  rw [List.map_map]
  conv_rhs => rw [show b64Encode l = List.map id (b64Encode l) by simp]
  apply List.map_congr_left
  intro c hc
  rcases mem_b64Encode l h c hc with rfl | ⟨v, hv, rfl⟩
  · simp
  · have h1 := (b64EncChar_ne v hv).2.1
    have h2 := (b64EncChar_ne v hv).2.2.1
    simp only [Function.comp_apply]
    by_cases e43 : b64EncChar v = 43
    · simp [e43]
    · by_cases e47 : b64EncChar v = 47
      · simp [e47]
      · simp [e43, e47, h1, h2]

theorem no_dot_urlsafeB64Encode (l : List Nat) (h : ∀ x ∈ l, x < 256) :
    46 ∉ urlsafeB64Encode l := by
  intro hmem
  unfold urlsafeB64Encode at hmem
  rw [List.mem_map] at hmem
  obtain ⟨c, hc, he⟩ := hmem
  rcases mem_b64Encode l h c hc with rfl | ⟨v, hv, rfl⟩
  · simp at he
  · have h3 := (b64EncChar_ne v hv).2.2.2
    by_cases e43 : b64EncChar v = 43
    · rw [e43] at he; simp at he
    · by_cases e47 : b64EncChar v = 47
      · rw [e47] at he; simp at he
      · rw [if_neg e43, if_neg e47] at he; exact h3 he

theorem urlsafeB64_roundtrip (l : List Nat) (h : ∀ x ∈ l, x < 256) :
    urlsafeB64Decode (urlsafeB64Encode l) = some l := by
  unfold urlsafeB64Decode
  rw [untrans_trans_encode l h, a2b_b64Encode l h 0 []]
  simp

/-! ## Lemmas: splitting, decimal printing and parsing -/

theorem splitFirst_append (sep : Nat) (A B : List Nat) (h : sep ∉ A) :
    splitFirst sep (A ++ sep :: B) = some (A, B) := by
  induction A with
  | nil => simp [splitFirst]
  | cons c A ih =>
    have hc : c ≠ sep := by intro e; exact h (by simp [e])
    have hA : sep ∉ A := fun m => h (by simp [m])
    simp only [List.cons_append, splitFirst, if_neg hc, List.append_eq, ih hA]

theorem rsplitLast_append (sep : Nat) (A B : List Nat) (hB : sep ∉ B) :
    rsplitLast sep (A ++ sep :: B) = some (A, B) := by
  unfold rsplitLast
  rw [show (A ++ sep :: B).reverse = B.reverse ++ sep :: A.reverse by simp,
    splitFirst_append sep _ _ (by simpa using hB)]
  simp

theorem natDigitsCore_spec : ∀ fuel n acc, n < fuel →
    natDigitsCore fuel n acc = natDigitsW n ++ acc := by
  intro fuel
  induction fuel with
  | zero => intro n acc h; omega
  | succ fuel ih =>
    intro n acc h
    by_cases h10 : n < 10
    · rw [natDigitsCore, if_pos h10, natDigitsW, if_pos h10]
      simp
    · rw [natDigitsCore, if_neg h10, ih (n / 10) _ (by omega)]
      conv_rhs => rw [natDigitsW]
      rw [if_neg h10]
      simp

theorem natDigits_eq_natDigitsW (n : Nat) : natDigits n = natDigitsW n := by
  rw [natDigits, natDigitsCore_spec (n + 1) n [] (by omega)]
  simp

theorem natDigitsW_bounds (n : Nat) : ∀ c ∈ natDigitsW n, 48 ≤ c ∧ c ≤ 57 := by
  induction n using natDigitsW.induct with
  | case1 n h =>
    intro c hc
    rw [natDigitsW, if_pos h] at hc
    simp only [List.mem_singleton] at hc
    omega
  | case2 n h ih =>
    intro c hc
    rw [natDigitsW, if_neg h] at hc
    rcases List.mem_append.1 hc with hm | hm
    · exact ih c hm
    · simp only [List.mem_singleton] at hm
      omega

theorem natDigitsW_ne_nil (n : Nat) : natDigitsW n ≠ [] := by
  rw [natDigitsW]
  by_cases h : n < 10 <;> simp [h]

theorem parseDigitsAux_natDigitsW (n : Nat) : ∀ t acc,
    parseDigitsAux (natDigitsW n ++ t) acc
      = parseDigitsAux t (acc * 10 ^ (natDigitsW n).length + n) := by
  induction n using natDigitsW.induct with
  | case1 n h =>
    intro t acc
    rw [natDigitsW, if_pos h]
    simp only [List.cons_append, List.nil_append, parseDigitsAux,
      if_pos (by omega : 48 ≤ 48 + n ∧ 48 + n ≤ 57), List.length_singleton]
    congr 1
    omega
  | case2 n h ih =>
    intro t acc
    rw [natDigitsW, if_neg h]
    rw [List.append_assoc, ih, List.cons_append, List.nil_append]
    simp only [parseDigitsAux, if_pos (by omega : 48 ≤ 48 + n % 10 ∧ 48 + n % 10 ≤ 57),
      List.length_append, List.length_singleton]
    congr 1
    have hd : 48 + n % 10 - 48 = n % 10 := by omega
    rw [hd, pow_succ, ← mul_assoc]
    generalize acc * 10 ^ (natDigitsW (n / 10)).length = A
    omega

theorem parseDigits_natDigits (n : Nat) : parseDigits (natDigits n) = some n := by
  rw [natDigits_eq_natDigitsW, parseDigits, if_neg (natDigitsW_ne_nil n)]
  have := parseDigitsAux_natDigitsW n [] 0
  simpa [parseDigitsAux] using this

theorem parseIntPy_natDigits (n : Nat) : parseIntPy (natDigits n) = some (n : Int) := by
  have hne := natDigitsW_ne_nil n
  have hb := natDigitsW_bounds n
  rw [← natDigits_eq_natDigitsW] at hne hb
  rcases hd : natDigits n with _ | ⟨c, rest⟩
  · exact absurd hd hne
  · have hc : 48 ≤ c ∧ c ≤ 57 := hb c (by rw [hd]; simp)
    rw [parseIntPy, if_neg (by omega : ¬c = 45), ← hd, parseDigits_natDigits]
    simp

theorem natDigits_bounds (n : Nat) : ∀ c ∈ natDigits n, 48 ≤ c ∧ c ≤ 57 := by
  rw [natDigits_eq_natDigitsW]; exact natDigitsW_bounds n

/-! ## Lemmas: association lists, metadata file, codec round trip -/

theorem alook_aerase_self (l : List (List Nat × List Nat)) (k : List Nat) :
    alook (aerase l k) k = none := by
  induction l with
  | nil => rfl
  | cons p rest ih =>
    obtain ⟨pk, pv⟩ := p
    by_cases h : pk = k
    · simpa [aerase, h] using ih
    · simpa [aerase, alook, h] using ih

theorem alook_aerase_ne (l : List (List Nat × List Nat)) (k k2 : List Nat) (h : k2 ≠ k) :
    alook (aerase l k) k2 = alook l k2 := by
  induction l with
  | nil => rfl
  | cons p rest ih =>
    obtain ⟨pk, pv⟩ := p
    by_cases hk : pk = k
    · subst hk
      rw [aerase, if_pos rfl, ih, alook, if_neg (fun e => h e.symm)]
    · rw [aerase, if_neg hk, alook, alook]
      by_cases h2 : pk = k2
      · rw [if_pos h2, if_pos h2]
      · rw [if_neg h2, if_neg h2, ih]

theorem alook_aset_self (l : List (List Nat × List Nat)) (k v : List Nat) :
    alook (aset l k v) k = some v := by
  simp [aset, alook]

theorem alook_aset_ne (l : List (List Nat × List Nat)) (k k2 v : List Nat) (h : k2 ≠ k) :
    alook (aset l k v) k2 = alook l k2 := by
  rw [aset, alook, if_neg (fun e => h e.symm)]
  exact alook_aerase_ne l k k2 h

theorem loadMetaM_saveMetaM (v : Vault) (m : PlatRec) : loadMetaM (saveMetaM v m) = some m := rfl

theorem loadMetaG_saveMetaG (v : Vault) (m : PlatRec) : loadMetaG (saveMetaG v m) = some m := rfl

theorem loadMetaG_saveMetaM (v : Vault) (m : PlatRec) : loadMetaG (saveMetaM v m) = loadMetaG v := rfl

theorem loadMetaM_saveMetaG (v : Vault) (m : PlatRec) : loadMetaM (saveMetaG v m) = loadMetaM v := rfl

theorem payload_bytes (email : List Nat) (hb : ∀ x ∈ email, x < 256) (ts : Nat) :
    ∀ x ∈ email ++ 124 :: natDigits ts, x < 256 := by
  intro x hx
  rcases List.mem_append.1 hx with hm | hm
  · exact hb x hm
  · rcases List.mem_cons.1 hm with rfl | hm
    · omega
    · have := natDigits_bounds ts x hm
      omega

theorem verifyPayload_make (mac : List Nat → List Nat → List Nat) (keyEnv : Option (List Nat))
    (hmacdot : ∀ k p, 46 ∉ mac k p) (email : List Nat) (hb : ∀ x ∈ email, x < 256)
    (ts ttl : Nat) :
    verifyPayload mac keyEnv (make_state_token mac keyEnv ts email ttl)
      = some (email ++ 124 :: natDigits ts) := by
  have hpb := payload_bytes email hb ts
  unfold make_state_token verifyPayload
  cases hk : getKey keyEnv with
  | none => simpa using urlsafeB64_roundtrip _ hpb
  | some k =>
    have hdot : (46 : Nat) ∈ urlsafeB64Encode (email ++ 124 :: natDigits ts)
        ++ 46 :: mac k (email ++ 124 :: natDigits ts) := by simp
    simp only [if_pos hdot, rsplitLast_append 46 _ _ (hmacdot k _),
      urlsafeB64_roundtrip _ hpb]
    simp

/-! ## small list lemmas used by the mutation theorem -/

theorem set_append_right (A B : List Nat) (n x : Nat) :
    (A ++ B).set (A.length + n) x = A ++ B.set n x := by
  induction A with
  | nil => simp
  | cons a A ih =>
    rw [show (a :: A).length + n = (A.length + n) + 1 by simp; omega]
    simp only [List.cons_append, List.set, List.append_eq]
    rw [ih]

theorem get?_set_self (l : List Nat) : ∀ i c, i < l.length → (l.set i c).get? i = some c := by
  induction l with
  | nil => intro i c hi; exact absurd hi (by simp)
  | cons a l ih =>
    intro i c hi
    cases i with
    | zero => rfl
    | succ j => exact ih j c (by simpa using hi)

theorem mem_of_mem_set (l : List Nat) : ∀ i c x, x ∈ l.set i c → x ∈ l ∨ x = c := by
  induction l with
  | nil => intro i c x hx; simp [List.set] at hx
  | cons a l ih =>
    intro i c x hx
    cases i with
    | zero =>
      simp only [List.set, List.mem_cons] at hx
      rcases hx with rfl | hx
      · exact Or.inr rfl
      · exact Or.inl (by simp [hx])
    | succ j =>
      simp only [List.set, List.mem_cons] at hx
      rcases hx with rfl | hx
      · exact Or.inl (by simp)
      · rcases ih j c x hx with hm | rfl
        · exact Or.inl (by simp [hm])
        · exact Or.inr rfl

/-! ## Claim C1 -/

/-- C1 counterexample: with a key configured (`some "k"`), the token
`urlsafeB64Encode("a|0")` contains no `.` separator, yet
`verify_state_token` accepts it and returns the embedded email `"a"`
instead of the invalid sentinel `none` — the `if '.' in token and key`
guard routes a dotless token into the unsigned fallback even when a key
is configured. -/
theorem C1_counterexample :
    46 ∉ urlsafeB64Encode (bs (r"a") ++ 124 :: natDigits 0) ∧
    verify_state_token (fun _ _ => bs (r"ff")) (some (bs (r"k"))) 0
      (urlsafeB64Encode (bs (r"a") ++ 124 :: natDigits 0)) 600 = some (bs (r"a")) :=
  ⟨by decide, by decide⟩

/-- C1 amended: when a key is configured but the supplied token contains
no `.` separator, verification does NOT fail; it proceeds in the unsigned
fallback mode, behaving exactly as verification with no key configured
(expiry-only checking), and in particular accepts a well-formed unexpired
unsigned payload. -/
theorem C1_amended_thm (mac : List Nat → List Nat → List Nat) (keyEnv : Option (List Nat))
    (now : Nat) (token : List Nat) (maxAge : Nat) (hnd : 46 ∉ token) :
    verify_state_token mac keyEnv now token maxAge
      = verify_state_token mac none now token maxAge := by
  have h1 : verifyPayload mac keyEnv token = verifyPayload mac none token := by
    unfold verifyPayload
    cases hk : getKey keyEnv with
    | none => rfl
    | some k => simp only [getKey, if_neg hnd]
  unfold verify_state_token
  rw [h1]

/-- C1 amended, witness at a concrete dotless token and configured key. -/
theorem C1_amended_witness :
    46 ∉ bs (r"YXww") ∧
    verify_state_token (fun _ _ => bs (r"ff")) (some (bs (r"k"))) 0 (bs (r"YXww")) 600
      = verify_state_token (fun _ _ => bs (r"ff")) none 0 (bs (r"YXww")) 600 :=
  ⟨by decide, C1_amended_thm _ _ _ _ _ (by decide)⟩

/-! ## Claim C3 -/

/-- C3: for every valid email (no `|` byte, byte-valued) and every issue
time `ts`, delay `d` and ttl, verifying the issued token after `d`
seconds returns the email iff `d ≤ ttl` and the invalid sentinel iff
`d > ttl`; `keyEnv` ranges over both the signed mode (key configured) and
the unsigned fallback (no key), so the TTL check holds in both. The
keyed-hash digest is assumed dot-free, as a hex digest is. -/
theorem C3_thm (mac : List Nat → List Nat → List Nat) (keyEnv : Option (List Nat))
    (hmacdot : ∀ k p, 46 ∉ mac k p) (email : List Nat) (hemail : 124 ∉ email)
    (hb : ∀ x ∈ email, x < 256) (ts d ttl : Nat) :
    verify_state_token mac keyEnv (ts + d) (make_state_token mac keyEnv ts email ttl) ttl
      = if d ≤ ttl then some email else none := by
  unfold verify_state_token
  simp only [verifyPayload_make mac keyEnv hmacdot email hb ts ttl,
    splitFirst_append 124 email (natDigits ts) hemail, parseIntPy_natDigits ts]
  by_cases hd : d ≤ ttl
  · rw [if_pos hd, if_neg (by push_cast; omega)]
  · rw [if_neg hd, if_pos (by push_cast; omega)]

/-- C3 witness: immediate verification (d = 0) in signed mode returns the
email, and a ttl = 1 token verified after a 2-second delay in unsigned
mode returns the invalid sentinel. -/
theorem C3_witness :
    verify_state_token (fun _ _ => bs (r"ff")) (some (bs (r"k"))) (100 + 0)
        (make_state_token (fun _ _ => bs (r"ff")) (some (bs (r"k"))) 100 (bs (r"me@x")) 600) 600
      = some (bs (r"me@x")) ∧
    verify_state_token (fun _ _ => bs (r"ff")) none (100 + 2)
        (make_state_token (fun _ _ => bs (r"ff")) none 100 (bs (r"me@x")) 1) 1 = none := by
  constructor
  · have h := C3_thm (fun _ _ => bs (r"ff")) (some (bs (r"k")))
      (by intro k p; show (46 : Nat) ∉ bs (r"ff"); decide)
      (bs (r"me@x")) (by decide) (by decide) 100 0 600
    rw [if_pos (by omega : (0 : Nat) ≤ 600)] at h
    exact h
  · have h := C3_thm (fun _ _ => bs (r"ff")) none
      (by intro k p; show (46 : Nat) ∉ bs (r"ff"); decide)
      (bs (r"me@x")) (by decide) (by decide) 100 2 1
    rw [if_neg (by omega : ¬(2 : Nat) ≤ 1)] at h
    exact h

/-! ## Claim C4 -/

/-- C4 counterexample: in the token issued for email `"ab"` at time 0
(`YWJ8MA==.ab` under the concrete digest function), changing the single
byte at index 5 — inside the base64 payload portion, as the second
conjunct attests — yields a different token that `verify_state_token`
still accepts, returning the email: CPython base64 drops the unused
trailing bits of the final group, so `MB==` decodes to the same payload
bytes as `MA==` and the recomputed digest still matches. Hence a
single-byte payload mutation need not make verification fail. -/
theorem C4_counterexample :
    (make_state_token (fun _ _ => bs (r"ab")) (some (bs (r"k"))) 0 (bs (r"ab")) 600).set 5 66
        ≠ make_state_token (fun _ _ => bs (r"ab")) (some (bs (r"k"))) 0 (bs (r"ab")) 600 ∧
    5 < (urlsafeB64Encode (bs (r"ab") ++ 124 :: natDigits 0)).length ∧
    verify_state_token (fun _ _ => bs (r"ab")) (some (bs (r"k"))) 0
      ((make_state_token (fun _ _ => bs (r"ab")) (some (bs (r"k"))) 0 (bs (r"ab")) 600).set 5 66)
      600 = some (bs (r"ab")) :=
  ⟨by decide, by decide, by decide⟩

/-- C4 amended: mutating any single byte of the signature portion (to any
byte other than the recomputed digest character there and other than the
`.` separator) makes `verify_state_token` return the invalid sentinel:
the digest is recomputed over the decoded payload and compared for
equality (the source uses `hmac.compare_digest`, whose constant-time
execution is a timing property outside this embedding), so any changed
signature mismatches. Payload-portion mutations, by contrast, are only
rejected when the mutated base64 decodes differently (see the
counterexample). `verify_state_token` is a total function: it never
raises, returning the sentinel on every malformed input. -/
theorem C4_amended_thm (mac : List Nat → List Nat → List Nat) (keyEnv : Option (List Nat))
    (k : List Nat) (hk : getKey keyEnv = some k) (hmacdot : ∀ k2 p, 46 ∉ mac k2 p)
    (email : List Nat) (hb : ∀ x ∈ email, x < 256) (ts ttl now maxAge i c : Nat)
    (hi : i < (mac k (email ++ 124 :: natDigits ts)).length)
    (hc46 : c ≠ 46)
    (hne : (mac k (email ++ 124 :: natDigits ts)).get? i ≠ some c) :
    verify_state_token mac keyEnv now
      ((make_state_token mac keyEnv ts email ttl).set
        ((urlsafeB64Encode (email ++ 124 :: natDigits ts)).length + 1 + i) c) maxAge = none := by
  have hpb := payload_bytes email hb ts
  have hmk : make_state_token mac keyEnv ts email ttl
      = urlsafeB64Encode (email ++ 124 :: natDigits ts)
        ++ 46 :: mac k (email ++ 124 :: natDigits ts) := by
    unfold make_state_token
    rw [hk]
  have hset : (urlsafeB64Encode (email ++ 124 :: natDigits ts)
        ++ 46 :: mac k (email ++ 124 :: natDigits ts)).set
        ((urlsafeB64Encode (email ++ 124 :: natDigits ts)).length + 1 + i) c
      = urlsafeB64Encode (email ++ 124 :: natDigits ts)
        ++ 46 :: (mac k (email ++ 124 :: natDigits ts)).set i c := by
    rw [show (urlsafeB64Encode (email ++ 124 :: natDigits ts)).length + 1 + i
        = (urlsafeB64Encode (email ++ 124 :: natDigits ts)).length + (i + 1) by omega,
      set_append_right]
    rfl
  have hs46 : (46 : Nat) ∉ (mac k (email ++ 124 :: natDigits ts)).set i c := by
    intro hm
    rcases mem_of_mem_set _ i c 46 hm with hm | hm
    · exact hmacdot k _ hm
    · exact hc46 hm.symm
  have hneq : mac k (email ++ 124 :: natDigits ts)
      ≠ (mac k (email ++ 124 :: natDigits ts)).set i c := by
    intro he
    have hq : (mac k (email ++ 124 :: natDigits ts)).get? i
        = ((mac k (email ++ 124 :: natDigits ts)).set i c).get? i :=
      congrArg (fun l => List.get? l i) he
    rw [get?_set_self _ i c hi] at hq
    exact hne hq
  have hdot : (46 : Nat) ∈ urlsafeB64Encode (email ++ 124 :: natDigits ts)
      ++ 46 :: (mac k (email ++ 124 :: natDigits ts)).set i c := by simp
  rw [hmk, hset]
  unfold verify_state_token verifyPayload
  rw [hk]
  simp only [if_pos hdot, rsplitLast_append 46 _ _ hs46, urlsafeB64_roundtrip _ hpb,
    if_neg hneq]

/-- C4 amended, witness: mutating the first signature byte of the token
for email `"ab"` at time 0 to the byte 99 makes verification return the
sentinel. -/
theorem C4_amended_witness :
    verify_state_token (fun _ _ => bs (r"ab")) (some (bs (r"k"))) 0
      ((make_state_token (fun _ _ => bs (r"ab")) (some (bs (r"k"))) 0 (bs (r"ab")) 600).set
        ((urlsafeB64Encode (bs (r"ab") ++ 124 :: natDigits 0)).length + 1 + 0) 99) 600 = none :=
  C4_amended_thm (fun _ _ => bs (r"ab")) (some (bs (r"k"))) (bs (r"k")) (by decide)
    (by intro k2 p; show (46 : Nat) ∉ bs (r"ab"); decide) (bs (r"ab")) (by decide)
    0 600 0 600 0 99 (by decide) (by decide)
    (by show (bs (r"ab")).get? 0 ≠ some 99; decide)

/-! ## Claim C2 -/

/-- C2: in `_callback_core`, whenever the flow reaches state validation
(no provider error, a truthy long-lived token resolved) with a present
(nonempty) `state` value whose verification fails, then: if the raw state
contains no `@` byte the callback returns the distinct error page
`Invalid or expired state token` with status 400 and an empty list of
store calls (no token stored); if the raw state contains an `@` byte, the
callback proceeds to the store-and-sync tail with the raw state used as
the literal user email identity. -/
theorem C2_thm (env : CbEnv) (platform code token error : Option (List Nat)) (s : List Nat)
    (ltOpt : Option (List Nat))
    (herr : truthy error = false)
    (hres : resolveLongToken env (lowerList (platform.getD [])) code token = Sum.inr ltOpt)
    (hlt : truthy ltOpt = true)
    (hs : s ≠ [])
    (hv : verify_state_token env.mac env.keyEnv env.now s 600 = none) :
    callback_core env platform code token error (some s)
      = if 64 ∈ s then
          storeAndReport env (lowerList (platform.getD [])) (ltOpt.getD []) (some s)
        else ⟨bs (r"Invalid or expired state token"), 400, []⟩ := by
  simp only [callback_core, herr, hres, hlt, hv, Bool.false_eq_true, if_false,
    not_true, if_neg hs]

/-- C2 witness: a simulated meta callback with token `"T"` and the
unverifiable state `"zzz"` (no `@`) ends at the invalid-state error page
with no store call attempted. -/
theorem C2_witness :
    callback_core
      { keyEnv := none, mac := fun _ _ => [], now := 0,
        metaClientId := none, metaClientSecret := none,
        ex1Status := 0, ex1Text := [], ex1Access := none, ex2Status := 0, ex2Access := none,
        googleAvail := false, tiktokAvail := false,
        storeMeta := fun _ _ => true, storeGoogle := fun _ _ => true,
        storeTiktok := fun _ _ => true,
        rowsMeta := none, rowsGoogle := none, rowsTiktok := none }
      (some (bs (r"meta"))) none (some (bs (r"T"))) none (some (bs (r"zzz")))
      = ⟨bs (r"Invalid or expired state token"), 400, []⟩ := by
  have h := C2_thm
    { keyEnv := none, mac := fun _ _ => [], now := 0,
      metaClientId := none, metaClientSecret := none,
      ex1Status := 0, ex1Text := [], ex1Access := none, ex2Status := 0, ex2Access := none,
      googleAvail := false, tiktokAvail := false,
      storeMeta := fun _ _ => true, storeGoogle := fun _ _ => true,
      storeTiktok := fun _ _ => true,
      rowsMeta := none, rowsGoogle := none, rowsTiktok := none }
    (some (bs (r"meta"))) none (some (bs (r"T"))) none (bs (r"zzz")) (some (bs (r"T")))
    (by decide) (by decide) (by decide) (by decide) (by decide)
  rw [if_neg (by decide : ¬(64 : Nat) ∈ bs (r"zzz"))] at h
  exact h

/-! ## Claim C5 -/

/-- C5: when the keyring path cannot succeed (library unavailable, or
`set_password` failing) and encryption is unavailable, both the Meta and
the Google store helpers return failure with the entire persisted state
unchanged; moreover — with no hypotheses — a store call only ever leaves
the file token map unchanged or extends it with the Fernet encryption of
the token under the user slot key: no plaintext token reaches the file. -/
theorem C5_thm (v : Vault) (token : List Nat) (user : Option (List Nat))
    (hk : v.kAvail = false ∨ v.kWriteOk = false)
    (he : can_encrypt v = false) :
    store_token_for_meta_user v token user = (false, v) ∧
    store_token_for_google_user v token user = (false, v) ∧
    (∀ (w : Vault) (t : List Nat) (u : Option (List Nat)),
      metaTokens (store_token_for_meta_user w t u).2 = metaTokens w ∨
      metaTokens (store_token_for_meta_user w t u).2
        = aset (metaTokens w) (pyKeyOf u) (w.encF t)) ∧
    (∀ (w : Vault) (t : List Nat) (u : Option (List Nat)),
      googleTokens (store_token_for_google_user w t u).2 = googleTokens w ∨
      googleTokens (store_token_for_google_user w t u).2
        = aset (googleTokens w) (pyKeyOf u) (w.encF t)) := by
  have hfail : ∀ w : Vault, can_encrypt w = false → ∀ t,
      encrypt_token w t = none := by
    intro w hw t
    unfold can_encrypt at hw
    unfold encrypt_token
    by_cases hf : w.fernet = true
    · have hsk : truthy w.secretKey = false := by
        cases hsk : truthy w.secretKey
        · rfl
        · simp [hf, hsk] at hw
      simp [hf, hsk]
    · simp [hf]
  have hknot : ¬(v.kAvail = true ∧ v.kWriteOk = true) := by
    rcases hk with h | h <;> simp [h]
  refine ⟨?_, ?_, ?_, ?_⟩
  · unfold store_token_for_meta_user
    rw [if_neg hknot, if_pos (by simp [he])]
  · unfold store_token_for_google_user
    rw [if_neg hknot, if_pos (by simp [he])]
  · intro w t u
    unfold store_token_for_meta_user
    by_cases hw : w.kAvail = true ∧ w.kWriteOk = true
    · rw [if_pos hw]
      left
      simp [metaTokens, loadMetaM, saveMetaM]
    · rw [if_neg hw]
      by_cases hce : can_encrypt w = true
      · rw [if_neg (by simp [hce])]
        have : encrypt_token w t = some (w.encF t) := by
          unfold can_encrypt at hce
          unfold encrypt_token
          by_cases hf : w.fernet = true
          · have hsk : truthy w.secretKey = true := by
              cases hsk : truthy w.secretKey
              · simp [hf, hsk] at hce
              · rfl
            simp [hf, hsk]
          · simp [hf] at hce
        rw [this]
        dsimp only
        by_cases hz : w.encF t = []
        · rw [if_pos hz]; left; rfl
        · rw [if_neg hz]
          right
          simp [metaTokens, loadMetaM, saveMetaM]
      · rw [if_pos (by simpa using hce)]
        left
        rfl
  · intro w t u
    unfold store_token_for_google_user
    by_cases hw : w.kAvail = true ∧ w.kWriteOk = true
    · rw [if_pos hw]
      left
      simp [googleTokens, loadMetaG, saveMetaG]
    · rw [if_neg hw]
      by_cases hce : can_encrypt w = true
      · rw [if_neg (by simp [hce])]
        have : encrypt_token w t = some (w.encF t) := by
          unfold can_encrypt at hce
          unfold encrypt_token
          by_cases hf : w.fernet = true
          · have hsk : truthy w.secretKey = true := by
              cases hsk : truthy w.secretKey
              · simp [hf, hsk] at hce
              · rfl
            simp [hf, hsk]
          · simp [hf] at hce
        rw [this]
        dsimp only
        by_cases hz : w.encF t = []
        · rw [if_pos hz]; left; rfl
        · rw [if_neg hz]
          right
          simp [googleTokens, loadMetaG, saveMetaG]
      · rw [if_pos (by simpa using hce)]
        left
        rfl

/-- C5 witness: a vault with no keyring and no Fernet rejects the store
and is left untouched, for Meta and Google alike. -/
theorem C5_witness :
    store_token_for_meta_user
      { kAvail := false, kWriteOk := false, kStore := [], fernet := false,
        secretKey := none, encF := fun t => 69 :: t,
        decF := fun c => match c with | 69 :: r => some r | _ => none, file := none }
      (bs (r"T")) none
      = (false,
        { kAvail := false, kWriteOk := false, kStore := [], fernet := false,
          secretKey := none, encF := fun t => 69 :: t,
          decF := fun c => match c with | 69 :: r => some r | _ => none, file := none }) ∧
    store_token_for_google_user
      { kAvail := false, kWriteOk := false, kStore := [], fernet := false,
        secretKey := none, encF := fun t => 69 :: t,
        decF := fun c => match c with | 69 :: r => some r | _ => none, file := none }
      (bs (r"T")) none
      = (false,
        { kAvail := false, kWriteOk := false, kStore := [], fernet := false,
          secretKey := none, encF := fun t => 69 :: t,
          decF := fun c => match c with | 69 :: r => some r | _ => none, file := none }) := by
  have h := C5_thm
    { kAvail := false, kWriteOk := false, kStore := [], fernet := false,
      secretKey := none, encF := fun t => 69 :: t,
      decF := fun c => match c with | 69 :: r => some r | _ => none, file := none }
    (bs (r"T")) none (Or.inl rfl) (by decide)
  exact ⟨h.1, h.2.1⟩

/-! ## Claim C6 -/

/-- C6 counterexample, two concrete scenarios. First: storing the EMPTY
token through an available keyring succeeds, yet retrieve returns `none`
(the `if t:` truthiness check skips the falsy keyring value and the file
holds no copy), so retrieve does not return a token equal to the stored
value. Second: when `keyring.set_password` fails and the store falls back
to the encrypted file, a stale pre-existing keyring entry (`"OLD"`)
shadows the newly stored token (`"NEW"`) at retrieve time. -/
theorem C6_counterexample :
    ((store_token_for_meta_user
        { kAvail := true, kWriteOk := true, kStore := [], fernet := true,
          secretKey := some [107], encF := fun t => 69 :: t,
          decF := fun c => match c with | 69 :: r => some r | _ => none, file := none }
        [] none).1 = true ∧
      get_token_for_meta_user
        (store_token_for_meta_user
          { kAvail := true, kWriteOk := true, kStore := [], fernet := true,
            secretKey := some [107], encF := fun t => 69 :: t,
            decF := fun c => match c with | 69 :: r => some r | _ => none, file := none }
          [] none).2 none = none) ∧
    ((store_token_for_meta_user
        { kAvail := true, kWriteOk := false,
          kStore := [(bs (r"meta_access_token_default"), bs (r"OLD"))], fernet := true,
          secretKey := some [107], encF := fun t => 69 :: t,
          decF := fun c => match c with | 69 :: r => some r | _ => none, file := none }
        (bs (r"NEW")) none).1 = true ∧
      get_token_for_meta_user
        (store_token_for_meta_user
          { kAvail := true, kWriteOk := false,
            kStore := [(bs (r"meta_access_token_default"), bs (r"OLD"))], fernet := true,
            secretKey := some [107], encF := fun t => 69 :: t,
            decF := fun c => match c with | 69 :: r => some r | _ => none, file := none }
          (bs (r"NEW")) none).2 none = some (bs (r"OLD"))) :=
  ⟨⟨by decide, by decide⟩, ⟨by decide, by decide⟩⟩

/-- C6 amended: store followed by retrieve returns the stored token for
both backends, provided the token is nonempty (an empty token stored via
the keyring is skipped by the retrieve truthiness check), the Fernet
round trip holds for it, and — when the write happens — either the
keyring write succeeds, or the keyring is absent, or the keyring holds no
stale entry shadowing the slot (otherwise the stale value is returned). -/
theorem C6_amended_thm (v : Vault) (token : List Nat) (user : Option (List Nat))
    (ht : token ≠ [])
    (hrt : v.decF (v.encF token) = some token)
    (hcase : v.kAvail = false ∨ v.kWriteOk = true ∨
      alook v.kStore (metaTokenKeyName (pyKeyOf user)) = none)
    (hst : (store_token_for_meta_user v token user).1 = true) :
    get_token_for_meta_user (store_token_for_meta_user v token user).2 user = some token := by
  by_cases hw : v.kAvail = true ∧ v.kWriteOk = true
  · unfold store_token_for_meta_user
    rw [if_pos hw]
    unfold get_token_for_meta_user
    dsimp only
    rw [if_pos (by simpa [saveMetaM] using hw.1)]
    simp only [saveMetaM, alook_aset_self]
    rw [if_neg ht]
  · have hfile : ¬(v.kAvail = true ∧ v.kWriteOk = true) := hw
    unfold store_token_for_meta_user at hst ⊢
    rw [if_neg hfile] at hst ⊢
    by_cases hce : can_encrypt v = true
    · rw [if_neg (by simp [hce])] at hst ⊢
      have henc : encrypt_token v token = some (v.encF token) := by
        unfold can_encrypt at hce
        unfold encrypt_token
        by_cases hf : v.fernet = true
        · have hsk : truthy v.secretKey = true := by
            cases hsk : truthy v.secretKey
            · simp [hf, hsk] at hce
            · rfl
          simp [hf, hsk]
        · simp [hf] at hce
      rw [henc] at hst ⊢
      dsimp only at hst ⊢
      by_cases hz : v.encF token = []
      · rw [if_pos hz] at hst
        simp at hst
      · rw [if_neg hz] at hst ⊢
        have hkNone : v.kAvail = false ∨
            alook v.kStore (metaTokenKeyName (pyKeyOf user)) = none := by
          rcases hcase with h | h | h
          · exact Or.inl h
          · left
            cases hA : v.kAvail
            · rfl
            · exact absurd ⟨hA, h⟩ hw
          · exact Or.inr h
        unfold get_token_for_meta_user
        dsimp only
        have hkr : (if (saveMetaM v
              { (loadMetaM v).getD defaultPlatRec with
                tokens := aset ((loadMetaM v).getD defaultPlatRec).tokens (pyKeyOf user)
                  (v.encF token), lastSync := true }).kAvail = true then
            match alook (saveMetaM v
              { (loadMetaM v).getD defaultPlatRec with
                tokens := aset ((loadMetaM v).getD defaultPlatRec).tokens (pyKeyOf user)
                  (v.encF token), lastSync := true }).kStore
                (metaTokenKeyName (pyKeyOf user)) with
            | some t => if t = [] then none else some t
            | none => none
          else none) = (none : Option (List Nat)) := by
          rcases hkNone with h | h
          · rw [if_neg (by simp [saveMetaM, h])]
          · simp only [saveMetaM]
            by_cases hA : v.kAvail = true
            · rw [if_pos (by simpa using hA), h]
            · rw [if_neg (by simpa using hA)]
        rw [hkr, loadMetaM_saveMetaM]
        dsimp only
        rw [alook_aset_self]
        dsimp only
        rw [if_neg hz]
        unfold decrypt_token saveMetaM
        dsimp only
        unfold can_encrypt at hce
        by_cases hf : v.fernet = true
        · have hsk : truthy v.secretKey = true := by
            cases hsk : truthy v.secretKey
            · simp [hf, hsk] at hce
            · rfl
          simp [hf, hsk, hrt]
        · simp [hf] at hce
    · rw [if_pos (by simpa using hce)] at hst
      simp at hst

/-- C6 amended, witness: keyring path with the nonempty token `"T"`. -/
theorem C6_amended_witness :
    get_token_for_meta_user
      (store_token_for_meta_user
        { kAvail := true, kWriteOk := true, kStore := [], fernet := true,
          secretKey := some [107], encF := fun t => 69 :: t,
          decF := fun c => match c with | 69 :: r => some r | _ => none, file := none }
        (bs (r"T")) none).2 none = some (bs (r"T")) :=
  C6_amended_thm
    { kAvail := true, kWriteOk := true, kStore := [], fernet := true,
      secretKey := some [107], encF := fun t => 69 :: t,
      decF := fun c => match c with | 69 :: r => some r | _ => none, file := none }
    (bs (r"T")) none (by decide) (by decide) (Or.inr (Or.inl rfl)) (by decide)

/-! ## Claim C7 -/

/-- C7: if the per-user migration succeeds, the storage location probe
afterwards reports `keyring` and the encrypted-file token map no longer
holds an entry for that slot key; and when there is nothing to migrate
(keyring unavailable, or no truthy file-stored token under the key), the
migration returns failure with the entire state unchanged. -/
theorem C7_thm (v : Vault) (user : Option (List Nat)) :
    ((migrate_file_token_to_keyring_for_user v user).1 = true →
      token_storage_location_for_user (migrate_file_token_to_keyring_for_user v user).2 user
        = bs (r"keyring") ∧
      alook (metaTokens (migrate_file_token_to_keyring_for_user v user).2) (pyKeyOf user)
        = none) ∧
    ((v.kAvail = false ∨ truthy (alook (metaTokens v) (pyKeyOf user)) = false) →
      migrate_file_token_to_keyring_for_user v user = (false, v)) := by
  by_cases hA : v.kAvail = true
  · unfold migrate_file_token_to_keyring_for_user
    rw [if_neg (by simp [hA])]
    dsimp only
    cases henc : alook ((loadMetaM v).getD defaultPlatRec).tokens (pyKeyOf user) with
    | none => exact ⟨by intro h; simp at h, fun _ => rfl⟩
    | some enc =>
      dsimp only
      by_cases hz : enc = []
      · rw [if_pos hz]
        exact ⟨by intro h; simp at h, fun _ => rfl⟩
      · rw [if_neg hz]
        cases hdec : decrypt_token v enc with
        | none => exact ⟨by intro h; simp at h, fun _ => rfl⟩
        | some token =>
          dsimp only
          by_cases htz : token = []
          · rw [if_pos htz]
            exact ⟨by intro h; simp at h, fun _ => rfl⟩
          · rw [if_neg htz]
            by_cases hwk : v.kWriteOk = true
            · rw [if_neg (by simp [hwk])]
              dsimp only
              constructor
              · intro _
                constructor
                · unfold token_storage_location_for_user
                  rw [if_pos ⟨by simp [saveMetaM, hA],
                    by simp [saveMetaM, alook_aset_self, truthy, htz]⟩]
                · simp [metaTokens, saveMetaM, loadMetaM, alook_aerase_self]
              · intro hno
                rcases hno with h | h
                · rw [h] at hA; exact absurd hA (by simp)
                · rw [show metaTokens v = ((loadMetaM v).getD defaultPlatRec).tokens from rfl,
                    henc] at h
                  simp [truthy, hz] at h
            · rw [if_pos (by simpa using hwk)]
              exact ⟨by intro h; simp at h, fun _ => rfl⟩
  · have h1 : migrate_file_token_to_keyring_for_user v user = (false, v) := by
      unfold migrate_file_token_to_keyring_for_user
      rw [if_pos (by simpa using hA)]
    rw [h1]
    exact ⟨by intro h; simp at h, fun _ => rfl⟩

/-- C7 witness: a vault whose file holds an encrypted default-slot token
and whose keyring is available migrates successfully; afterwards the
location probe says `keyring` and the file entry is gone. -/
theorem C7_witness :
    (migrate_file_token_to_keyring_for_user
      { kAvail := true, kWriteOk := true, kStore := [], fernet := true,
        secretKey := some [107], encF := fun t => 69 :: t,
        decF := fun c => match c with | 69 :: r => some r | _ => none,
        file := some
          { meta := some
              { tokens := [(bs (r"default"), 69 :: bs (r"T"))],
                legacyTok := none, lastSync := false,
                emailAdAccounts := [], adAccountId := none },
            google := none } } none).1 = true ∧
    (token_storage_location_for_user
      (migrate_file_token_to_keyring_for_user
        { kAvail := true, kWriteOk := true, kStore := [], fernet := true,
          secretKey := some [107], encF := fun t => 69 :: t,
          decF := fun c => match c with | 69 :: r => some r | _ => none,
          file := some
            { meta := some
                { tokens := [(bs (r"default"), 69 :: bs (r"T"))],
                  legacyTok := none, lastSync := false,
                  emailAdAccounts := [], adAccountId := none },
              google := none } } none).2 none = bs (r"keyring") ∧
    alook (metaTokens
      (migrate_file_token_to_keyring_for_user
        { kAvail := true, kWriteOk := true, kStore := [], fernet := true,
          secretKey := some [107], encF := fun t => 69 :: t,
          decF := fun c => match c with | 69 :: r => some r | _ => none,
          file := some
            { meta := some
                { tokens := [(bs (r"default"), 69 :: bs (r"T"))],
                  legacyTok := none, lastSync := false,
                  emailAdAccounts := [], adAccountId := none },
              google := none } } none).2) (pyKeyOf none) = none) :=
  ⟨by decide,
    (C7_thm
      { kAvail := true, kWriteOk := true, kStore := [], fernet := true,
        secretKey := some [107], encF := fun t => 69 :: t,
        decF := fun c => match c with | 69 :: r => some r | _ => none,
        file := some
          { meta := some
              { tokens := [(bs (r"default"), 69 :: bs (r"T"))],
                legacyTok := none, lastSync := false,
                emailAdAccounts := [], adAccountId := none },
            google := none } } none).1 (by decide)⟩

/-! ## Claim C10 -/

/-- C10: with the keyring unavailable (and Fernet usable), the legacy
no-argument `store_token_for_meta` succeeds and persists the encrypted
token in the file token map under the `default` key; the storage-location
probe for the default slot reports `encrypted_file`; and the legacy
no-argument `migrate_file_token_to_keyring` — which probes only the old
`access_token_encrypted` field (absent here) — returns failure and
changes nothing, under every later keyring availability. -/
theorem C10_thm (v : Vault) (token : List Nat)
    (hA : v.kAvail = false)
    (hf : v.fernet = true) (hsk : truthy v.secretKey = true)
    (henz : v.encF token ≠ [])
    (hleg : metaLegacy v = none) :
    (store_token_for_meta v token).1 = true ∧
    alook (metaTokens (store_token_for_meta v token).2) (bs (r"default"))
      = some (v.encF token) ∧
    token_storage_location_for_user (store_token_for_meta v token).2 none
      = bs (r"encrypted_file") ∧
    (∀ b c : Bool,
      migrate_file_token_to_keyring
        { (store_token_for_meta v token).2 with kAvail := b, kWriteOk := c }
        = (false, { (store_token_for_meta v token).2 with kAvail := b, kWriteOk := c })) := by
  have hstore : store_token_for_meta v token
      = (true, saveMetaM v
          { (loadMetaM v).getD defaultPlatRec with
            tokens := aset ((loadMetaM v).getD defaultPlatRec).tokens (pyKeyOf none)
              (v.encF token),
            lastSync := true }) := by
    unfold store_token_for_meta store_token_for_meta_user
    rw [if_neg (by simp [hA]), if_neg (by simp [can_encrypt, hf, hsk])]
    rw [show encrypt_token v token = some (v.encF token) by
      unfold encrypt_token; simp [hf, hsk]]
    dsimp only
    rw [if_neg henz]
  rw [hstore]
  refine ⟨rfl, ?_, ?_, ?_⟩
  · rw [show (pyKeyOf none) = bs (r"default") from rfl] at *
    simp [metaTokens, loadMetaM, saveMetaM, alook_aset_self]
  · unfold token_storage_location_for_user
    rw [if_neg (by simp [saveMetaM, hA])]
    dsimp only
    rw [if_pos ⟨by simp [metaTokens, saveMetaM, loadMetaM, aset],
      by rw [show (pyKeyOf none) = bs (r"default") from rfl]
         simp [saveMetaM, loadMetaM, alook_aset_self, truthy, henz]⟩]
  · have hmig : ∀ w : Vault, metaLegacy w = none →
        migrate_file_token_to_keyring w = (false, w) := by
      intro w hw
      unfold migrate_file_token_to_keyring
      by_cases hA2 : w.kAvail = true
      · rw [if_neg (by simp [hA2])]
        dsimp only
        rw [show ((loadMetaM w).getD defaultPlatRec).legacyTok = metaLegacy w from rfl, hw]
      · rw [if_pos (by simpa using hA2)]
    intro b c
    apply hmig
    simpa [metaLegacy, loadMetaM, saveMetaM] using hleg

/-- C10 witness: keyring unavailable, Fernet configured; the legacy store
succeeds into the file `default` slot, the location probe says
`encrypted_file`, and the legacy migration — even with the keyring later
available and writable — returns failure without side effects. -/
theorem C10_witness :
    (store_token_for_meta
      { kAvail := false, kWriteOk := false, kStore := [], fernet := true,
        secretKey := some [107], encF := fun t => 69 :: t,
        decF := fun c => match c with | 69 :: r => some r | _ => none, file := none }
      (bs (r"T"))).1 = true ∧
    token_storage_location_for_user
      (store_token_for_meta
        { kAvail := false, kWriteOk := false, kStore := [], fernet := true,
          secretKey := some [107], encF := fun t => 69 :: t,
          decF := fun c => match c with | 69 :: r => some r | _ => none, file := none }
        (bs (r"T"))).2 none = bs (r"encrypted_file") ∧
    migrate_file_token_to_keyring
      { (store_token_for_meta
          { kAvail := false, kWriteOk := false, kStore := [], fernet := true,
            secretKey := some [107], encF := fun t => 69 :: t,
            decF := fun c => match c with | 69 :: r => some r | _ => none, file := none }
          (bs (r"T"))).2 with kAvail := true, kWriteOk := true }
      = (false,
        { (store_token_for_meta
            { kAvail := false, kWriteOk := false, kStore := [], fernet := true,
              secretKey := some [107], encF := fun t => 69 :: t,
              decF := fun c => match c with | 69 :: r => some r | _ => none, file := none }
            (bs (r"T"))).2 with kAvail := true, kWriteOk := true }) := by
  have h := C10_thm
    { kAvail := false, kWriteOk := false, kStore := [], fernet := true,
      secretKey := some [107], encF := fun t => 69 :: t,
      decF := fun c => match c with | 69 :: r => some r | _ => none, file := none }
    (bs (r"T")) rfl rfl (by decide) (by decide) (by decide)
  exact ⟨h.1, h.2.2.1, h.2.2.2 true true⟩

/-! ## Claim C8 -/

/-- C8: for the TikTok code exchange against a provider response with
transport status 200 but embedded `code = c ≠ 0` and configured
credentials, `backend.exchange_oauth_code` returns the typed failure
carrying the providers message (`TikTok API error: {message}`) with
`ok = false` — never a success — and the dashboard helper
`_exchange_tiktok_code` returns the failure sentinel `none`; dually, for
every response with transport status other than 200 both reject as well,
so both layers are checked. -/
theorem C8_thm (e : TkEnv) (c : Int)
    (h1 : truthy e.cid = true) (h2 : truthy e.csec = true)
    (hs : e.status = 200) (hc : e.codeField = some c) (hcnz : c ≠ 0) :
    exchange_oauth_code_tiktok e
      = failResp (bs (r"TikTok API error: ") ++ pyShowOptStr e.message) ∧
    (exchange_oauth_code_tiktok e).ok = false ∧
    exchange_tiktok_code_dash e = none ∧
    (∀ e2 : TkEnv, e2.status ≠ 200 →
      (exchange_oauth_code_tiktok e2).ok = false ∧ exchange_tiktok_code_dash e2 = none) := by
  have hmain : exchange_oauth_code_tiktok e
      = failResp (bs (r"TikTok API error: ") ++ pyShowOptStr e.message) := by
    unfold exchange_oauth_code_tiktok
    rw [if_neg (by simp [h1, h2]), if_neg (by simp [hs]), if_pos (by simp [hc, hcnz])]
  have hdash : exchange_tiktok_code_dash e = none := by
    unfold exchange_tiktok_code_dash
    rw [if_neg (by simp [h1, h2]), if_neg (by simp [hs]), if_neg (by simp [hc, hcnz])]
  refine ⟨hmain, by rw [hmain]; rfl, hdash, ?_⟩
  intro e2 hst2
  constructor
  · unfold exchange_oauth_code_tiktok
    by_cases hcred : ¬ truthy e2.cid = true ∨ ¬ truthy e2.csec = true
    · rw [if_pos hcred]; rfl
    · rw [if_neg hcred, if_pos hst2]; rfl
  · unfold exchange_tiktok_code_dash
    by_cases hcred : ¬ truthy e2.cid = true ∨ ¬ truthy e2.csec = true
    · rw [if_pos hcred]
    · rw [if_neg hcred, if_pos hst2]

/-- C8 witness: a stub response with status 200 and embedded code 40001
yields the typed failure with the provider message in the backend and the
`none` sentinel in the dashboard helper. -/
theorem C8_witness :
    exchange_oauth_code_tiktok
      { cid := some (bs (r"id")), csec := some (bs (r"sec")), status := 200, text := [],
        codeField := some 40001, message := some (bs (r"auth code expired")),
        dataAccess := some (bs (r"tok")), dataRefresh := none, fernetKey := none,
        encB := fun t => t }
      = failResp (bs (r"TikTok API error: ")
          ++ pyShowOptStr (some (bs (r"auth code expired")))) ∧
    exchange_tiktok_code_dash
      { cid := some (bs (r"id")), csec := some (bs (r"sec")), status := 200, text := [],
        codeField := some 40001, message := some (bs (r"auth code expired")),
        dataAccess := some (bs (r"tok")), dataRefresh := none, fernetKey := none,
        encB := fun t => t } = none := by
  have h := C8_thm
    { cid := some (bs (r"id")), csec := some (bs (r"sec")), status := 200, text := [],
      codeField := some 40001, message := some (bs (r"auth code expired")),
      dataAccess := some (bs (r"tok")), dataRefresh := none, fernetKey := none,
      encB := fun t => t }
    40001 (by decide) (by decide) rfl rfl (by decide)
  exact ⟨h.1, h.2.2.1⟩

/-! ## Claim C9 -/

/-- C9 counterexample: on a concrete input with no stored token, no
account id and no credentials, the COMPLETE result of the Google
`fetch_spend_and_persist` model is the bare two-row synthetic frame as
its return value plus the synthetic-data notice on the logging side
channel only: the Python function returns just the frame — no message or
flag accompanies the returned value, contrary to the claim that a
returned message/flag lets the caller distinguish synthetic from genuine
data. -/
theorem C9_counterexample :
    fetch_spend_and_persist_google
      { kAvail := false, kWriteOk := false, kStore := [], fernet := false,
        secretKey := none, encF := fun t => t, decF := fun _ => none, file := none }
      none [] none none
      = { rows := googleSynthRows, logs := [googleSyntheticMsg] } := by decide

/-- C9 amended: whenever no token or no account id resolves, or the live
fetch produces nothing (`_fetch_google_ads_spend` returns `[]` on every
internal failure, including absent client id/secret), the fetch returns
exactly the fixed two-row synthetic frame and emits the synthetic-data
info message to the log — the indication is logged, not returned. The
model is a total function, matching the source where every failure of the
live path is caught and degrades to the synthetic frame: it never raises. -/
theorem C9_amended_thm (v : Vault) (envAcct : Option (List Nat)) (api : List GRow)
    (access user : Option (List Nat))
    (h : truthy (resolveGoogleToken v access user) = false ∨
         truthy (resolveGoogleAcct v envAcct user) = false ∨ api = []) :
    (fetch_spend_and_persist_google v envAcct api access user).rows = googleSynthRows ∧
    (fetch_spend_and_persist_google v envAcct api access user).logs
      = [googleSyntheticMsg] := by
  unfold fetch_spend_and_persist_google
  by_cases hcond : truthy (resolveGoogleToken v access user) = true
      ∧ truthy (resolveGoogleAcct v envAcct user) = true
  · rw [if_pos hcond]
    rcases h with h | h | h
    · rw [hcond.1] at h; exact absurd h (by simp)
    · rw [hcond.2] at h; exact absurd h (by simp)
    · rw [if_neg (by simp [h])]
      exact ⟨rfl, rfl⟩
  · rw [if_neg hcond]
    exact ⟨rfl, rfl⟩

/-- C9 amended, witness: with nothing configured the fetch returns the
synthetic frame and logs the synthetic-data notice. -/
theorem C9_amended_witness :
    (fetch_spend_and_persist_google
      { kAvail := false, kWriteOk := false, kStore := [], fernet := false,
        secretKey := none, encF := fun t => t, decF := fun _ => none, file := none }
      none [] none none).rows = googleSynthRows ∧
    (fetch_spend_and_persist_google
      { kAvail := false, kWriteOk := false, kStore := [], fernet := false,
        secretKey := none, encF := fun t => t, decF := fun _ => none, file := none }
      none [] none none).logs = [googleSyntheticMsg] :=
  C9_amended_thm
    { kAvail := false, kWriteOk := false, kStore := [], fernet := false,
      secretKey := none, encF := fun t => t, decF := fun _ => none, file := none }
    none [] none none (Or.inl (by decide))
